import Mathlib

/-!
Verification development for the nexlib Celestron mount driver
(src/mount.rs and src/mount/coordinates.rs).

Modelling conventions, used consistently below:
* Rust byte slices and buffers are `List Nat` whose entries are the byte
  values (the theorems that need it carry `< 256` style bounds or are
  insensitive to them, matching `u8` on the wire).
* `io::ErrorKind` values are the inductive `ErrKind`; the spec's error
  names map to the kinds the code actually constructs:
  MalformedResponse ↦ `invalidData`, DeviceUnavailable ↦ `notConnected`,
  Timeout ↦ `timedOut`.
* a Rust panic (an `unwrap` failure, an out-of-bounds index, a usize
  underflow) is the distinguished outcome `RErr.panicked` for transport
  code, and `Option.none` for the pure angle codec.
* `f64` / `f32` arithmetic of the angle codec is modelled by exact
  rational arithmetic over `ℚ`, with the `as i64` cast modelled as
  truncation toward zero followed by the saturating clamp Rust applies
  to float-to-int casts.
* `u16` arithmetic wraps modulo `2 ^ 16` (release-profile semantics,
  which is also what the claim set assumes for `slew_rate`).
-/

/-- Subset of `io::ErrorKind` values the driver constructs. -/
inductive ErrKind where
  | invalidData
  | notConnected
  | timedOut
  | notFound
  | invalidInput
deriving DecidableEq, Repr

/-- Outcome of a fallible driver operation: a returned `io::Error` of the
given kind, or a Rust panic. -/
inductive RErr where
  | io (k : ErrKind)
  | panicked
deriving DecidableEq, Repr

/-! ## Angle codec (src/mount/coordinates.rs) -/

/-- Source constant `const REV: i64 = 0x100000000`. -/
def REV : ℤ := 0x100000000

/-- Value of an ASCII byte as a base-16 digit, exactly as
`char::to_digit(16)` accepts digits: `0`-`9`, `A`-`F`, `a`-`f`. -/
def hexDigitVal (c : Nat) : Option Nat :=
  if 48 ≤ c ∧ c ≤ 57 then some (c - 48)
  else if 65 ≤ c ∧ c ≤ 70 then some (c - 55)
  else if 97 ≤ c ∧ c ≤ 102 then some (c - 87)
  else none

/-- Digit-accumulation loop of `i64::from_str_radix(_, 16)` on the ASCII
bytes of the string. Returns `none` when a byte is not a hex digit.
The source's overflow check is omitted: every input this driver parses
is at most 8 hex digits, and `16 ^ 8 - 1 < 2 ^ 63`, so the checked
arithmetic in `from_str_radix` cannot fail on those inputs. -/
def parseHexNatAcc : List Nat → Nat → Option Nat
  | [], acc => some acc
  | c :: rest, acc =>
    match hexDigitVal c with
    | none => none
    | some v => parseHexNatAcc rest (acc * 16 + v)

/-- The grammar of `i64::from_str_radix(_, 16)`: an optional ASCII sign
(`+` is byte 43, `-` is byte 45) followed by one or more hex digits.
`none` models the `Err` return. -/
def from_str_radix16 : List Nat → Option ℤ
  | [] => none
  | 43 :: rest =>
    if rest.isEmpty then none
    else (parseHexNatAcc rest 0).map (fun n => (n : ℤ))
  | 45 :: rest =>
    if rest.isEmpty then none
    else (parseHexNatAcc rest 0).map (fun n => -(n : ℤ))
  | bs => (parseHexNatAcc bs 0).map (fun n => (n : ℤ))

/-- Source `from_msg_to_i64`: `str::from_utf8(bytes).unwrap()` followed by
`i64::from_str_radix(as_str, 16).unwrap()`. Both unwraps panic, modelled
as `none`. A byte that is not valid ASCII is never a hex digit, so an
input rejected by the UTF-8 unwrap is also rejected here; the two panic
sites collapse to the same `none` outcome. -/
def from_msg_to_i64 (bytes : List Nat) : Option ℤ :=
  from_str_radix16 bytes

/-- Truncation toward zero, the rounding mode of Rust's `as i64` cast
from a float. -/
def ratTrunc (q : ℚ) : ℤ :=
  if 0 ≤ q then ⌊q⌋ else ⌈q⌉

/-- Saturation of Rust's float-to-`i64` cast. -/
def i64Sat (z : ℤ) : ℤ :=
  max (-(2 ^ 63)) (min (2 ^ 63 - 1) z)

/-- Source `from_i64_to_deg`: `(pos as f64 / REV as f64) * 360.0`,
modelled over `ℚ`. -/
def from_i64_to_deg (pos : ℤ) : ℚ :=
  ((pos : ℚ) / (REV : ℚ)) * 360

/-- Source `from_deg_to_i64`: `((deg / 360.0) * REV as f64) as i64`,
modelled over `ℚ`. -/
def from_deg_to_i64 (deg : ℚ) : ℤ :=
  i64Sat (ratTrunc ((deg / 360) * (REV : ℚ)))

/-- Source `RADec::from_msg`: decodes `msg[0..8]` and `msg[9..=16]`,
ignoring the byte at offset 8. A message shorter than 17 bytes makes the
second slice panic (`none`); in the driver the argument is always the
32-byte receive buffer, so that case is unreachable. -/
def RADec_from_msg (msg : List Nat) : Option (ℚ × ℚ) :=
  if msg.length < 17 then none
  else
    match from_msg_to_i64 (msg.take 8), from_msg_to_i64 ((msg.drop 9).take 8) with
    | some a, some b => some (from_i64_to_deg a, from_i64_to_deg b)
    | _, _ => none

/-- Source `AzEl::from_msg`, whose body is byte-for-byte the same slicing
and decoding as `RADec::from_msg`. -/
def AzEl_from_msg (msg : List Nat) : Option (ℚ × ℚ) :=
  if msg.length < 17 then none
  else
    match from_msg_to_i64 (msg.take 8), from_msg_to_i64 ((msg.drop 9).take 8) with
    | some a, some b => some (from_i64_to_deg a, from_i64_to_deg b)
    | _, _ => none

/-! ## Slew-rate byte split (src/mount.rs, `slew_rate`) -/

/-- Source `slew_rate`: `((rate * 4) / 256, (rate * 4) % 256)` computed in
`u16`, so the product wraps modulo `2 ^ 16`; both quotient and remainder
then fit in `u8`, so the `try_into().unwrap()` calls succeed. -/
def slew_rate (rate : Nat) : Nat × Nat :=
  ((rate * 4 % 65536) / 256, rate * 4 % 65536 % 256)

/-! ## Uppercase hex formatting (Rust `format!("{:X}", v)` on `i64`) -/

/-- Upper-case hex digit characters, least significant last. -/
def HEXCHARS : List Char :=
  ['0', '1', '2', '3', '4', '5', '6', '7', '8', '9', 'A', 'B', 'C', 'D', 'E', 'F']

/-- Character for one hex digit value (index into the upper-case
alphabet; values `≥ 16` never occur). -/
def hexDigitChar (n : Nat) : Char :=
  HEXCHARS.getD n '0'

/-- Fuel-indexed digit emitter; 64 units of fuel cover every `u64`. -/
def hexUpperAux : Nat → Nat → List Char
  | 0, _ => []
  | fuel + 1, n =>
    if n < 16 then [hexDigitChar n]
    else hexUpperAux fuel (n / 16) ++ [hexDigitChar (n % 16)]

/-- Digits `{:X}` prints for a nonnegative value: no leading zeros, a
single `0` for zero. -/
def hexUpper (n : Nat) : List Char :=
  hexUpperAux 64 n

/-- Rust's `{:X}` on `i64` prints the two's-complement bit pattern, i.e.
the value modulo `2 ^ 64`, in upper-case hex with no padding. -/
def i64HexUpper (v : ℤ) : List Char :=
  hexUpper (v % (2 ^ 64)).toNat

/-- Wire bytes of `goto_ra_dec`: `write_handcontrol(b'r', ...)` writes the
single frame `[b'r']` followed by `format!("{:X},{:X}", ra_as_i64, dec_as_i64)`.
Rendered here as the characters whose ASCII codes go on the wire. -/
def goto_ra_dec_wire (ra dec : ℚ) : List Char :=
  'r' :: (i64HexUpper (from_deg_to_i64 ra) ++ ',' :: i64HexUpper (from_deg_to_i64 dec))

/-! ## Transport model (src/mount.rs, private impl of `CelestronMount`)

One `port.read(&mut self.recv)` call is one entry of a `PortScript`:
either the `io::Error` the serial layer returned (its timeout surfaces as
`ErrKind.timedOut`) or the bytes it placed in the buffer. An exhausted
script stands for a line on which no data ever arrives, which the serial
layer reports as a timeout error after its 3.5 s deadline. The state also
counts the reads performed and records every frame written, so that
round-trip claims are statements about the final state. `write_port`'s
own failure modes (partial write, the unbounded `bytes_to_read` poll) are
outside the claims and not modelled. -/

deriving instance DecidableEq for Except

abbrev PortScript := List (Except ErrKind (List Nat))

structure MState where
  script : PortScript
  reads : Nat
  writes : List (List Nat)
deriving DecidableEq, Repr

/-- Fresh driver state over a given script of port-read results. -/
def mkState (script : PortScript) : MState :=
  { script := script, reads := 0, writes := [] }

/-- Source `write_port`: writes the whole frame, then polls until bytes
are available (the poll has no observable effect here). -/
def write_port (frame : List Nat) (s : MState) : MState :=
  { s with writes := s.writes ++ [frame] }

/-- Result of source `read_port` on the next script entry: a propagated
I/O error; a panic when the read returns zero bytes (the source indexes
`self.recv[n - 1]` with `n = 0`, a usize underflow / out-of-bounds index);
`InvalidData` when the last received byte is not the terminator `#`
(byte 35); otherwise the received bytes (the source returns their count
`n`, with the bytes themselves left in `self.recv[..n]`). -/
def read_port_result (s : MState) : Except RErr (List Nat) :=
  match s.script with
  | [] => .error (.io .timedOut)
  | .error e :: _ => .error (.io e)
  | .ok bs :: _ =>
    if bs.length = 0 then .error .panicked
    else if bs.getLastD 0 ≠ 35 then .error (.io .invalidData)
    else .ok bs

/-- Source `read_port` performs exactly one read call into the 32-byte
buffer: one script entry is consumed and one read is counted, whatever
the outcome. -/
def read_port (s : MState) : Except RErr (List Nat) × MState :=
  (read_port_result s,
   { script := s.script.tail, reads := s.reads + 1, writes := s.writes })

/-- The 8-byte passthrough frame
`[b'P', 1, dev as u8, cmd, 0, 0, 0, resp_len as u8]` built by
`read_passthrough` (the data-expecting read path always sends
argument-count byte 1). -/
def ptFrame (dev cmd respLen : Nat) : List Nat :=
  [80, 1, dev % 256, cmd % 256, 0, 0, 0, respLen % 256]

/-- Length-based response classification of `read_passthrough`, applied
to the bytes `read_port` accepted: re-check the terminator (redundant
after `read_port`, kept from the source), then
`len == resp_len + 1` → success with the first `resp_len` bytes,
`len == resp_len + 2` → `NotConnected` (device unavailable / command
invalid), any other length → `InvalidData`. -/
def passthroughClassify (respLen : Nat) (bs : List Nat) : Except RErr (List Nat) :=
  if bs.getLastD 0 ≠ 35 then .error (.io .invalidData)
  else if bs.length = respLen + 1 then .ok (bs.take respLen)
  else if bs.length = respLen + 2 then .error (.io .notConnected)
  else .error (.io .invalidData)

/-- Value returned by source `read_passthrough`: propagate a `read_port`
failure, otherwise classify the accepted bytes by length. -/
def read_passthrough_result (dev cmd respLen : Nat) (s : MState) :
    Except RErr (List Nat) :=
  match (read_port (write_port (ptFrame dev cmd respLen) s)).1 with
  | .error e => .error e
  | .ok bs => passthroughClassify respLen bs

/-- Source `read_passthrough`: write the passthrough frame, read once,
classify the response by its total length. Whatever the outcome, exactly
one frame is written and one read performed, so the final state is the
one `read_port` leaves after the single write. -/
def read_passthrough (dev cmd respLen : Nat) (s : MState) :
    Except RErr (List Nat) × MState :=
  (read_passthrough_result dev cmd respLen s,
   (read_port (write_port (ptFrame dev cmd respLen) s)).2)

/-- Value returned by source `read_handcontrol`: propagate a `read_port`
failure, re-check the terminator, and return the payload with the
terminator stripped (`&self.recv[..len - 1]`). -/
def read_handcontrol_result (cmd : Nat) (s : MState) : Except RErr (List Nat) :=
  match (read_port (write_port [cmd % 256] s)).1 with
  | .error e => .error e
  | .ok bs =>
    if bs.getLastD 0 ≠ 35 then .error (.io .invalidData)
    else .ok bs.dropLast

/-- Source `read_handcontrol`: write the single opcode byte, read once;
one frame written, one read performed, whatever the outcome. -/
def read_handcontrol (cmd : Nat) (s : MState) : Except RErr (List Nat) × MState :=
  (read_handcontrol_result cmd s, (read_port (write_port [cmd % 256] s)).2)

/-! ## Facade operations the claims cite -/

/-- Source `is_aligned` (`'J'`, byte 74): exactly one data byte; raw `0`
is false, raw `1` is true, anything else is `InvalidData`. -/
def is_aligned (s : MState) : Except RErr Bool × MState :=
  match read_handcontrol 74 s with
  | (.error e, s1) => (.error e, s1)
  | (.ok res, s1) =>
    if res.length ≠ 1 then (.error (.io .invalidData), s1)
    else if res.getD 0 0 = 0 then (.ok false, s1)
    else if res.getD 0 0 = 1 then (.ok true, s1)
    else (.error (.io .invalidData), s1)

/-- Source `goto_in_progress` (`'L'`, byte 76): exactly one data byte;
ASCII `'0'` (48) is false, ASCII `'1'` (49) is true, anything else —
including raw `0` and `1` — is `InvalidData`. -/
def goto_in_progress (s : MState) : Except RErr Bool × MState :=
  match read_handcontrol 76 s with
  | (.error e, s1) => (.error e, s1)
  | (.ok res, s1) =>
    if res.length ≠ 1 then (.error (.io .invalidData), s1)
    else if res.getD 0 0 = 48 then (.ok false, s1)
    else if res.getD 0 0 = 49 then (.ok true, s1)
    else (.error (.io .invalidData), s1)

/-- Source `Rtc::get_datetime`: three successive passthrough reads to the
RTC unit (device 178): command 3 for month/day, command 4 for the
big-endian year, command 51 for hour/minute/second. The final
`chrono::Utc.with_ymd_and_hms(..).unwrap()` composition is elided; the
decoded six fields `(month, day, year, hour, minute, second)` are
returned directly. -/
def rtc_get_datetime (s : MState) :
    Except RErr (Nat × Nat × Nat × Nat × Nat × Nat) × MState :=
  match read_passthrough 178 3 2 s with
  | (.error e, s1) => (.error e, s1)
  | (.ok r1, s1) =>
    match read_passthrough 178 4 2 s1 with
    | (.error e, s2) => (.error e, s2)
    | (.ok r2, s2) =>
      match read_passthrough 178 51 3 s2 with
      | (.error e, s3) => (.error e, s3)
      | (.ok r3, s3) =>
        (.ok (r1.getD 0 0, r1.getD 1 0, r2.getD 0 0 * 256 + r2.getD 1 0,
              r3.getD 0 0, r3.getD 1 0, r3.getD 2 0), s3)

/-- Value returned by source `Gps::is_linked`: byte 0 is false, any
other byte true. -/
def gps_is_linked_result (s : MState) : Except RErr Bool :=
  match read_passthrough_result 176 55 1 s with
  | .error e => .error e
  | .ok res => .ok (res.getD 0 0 ≠ 0 : Bool)

/-- Source `Gps::is_linked`: passthrough read of one byte from the GPS
unit (device 176, command 55); exactly one round trip, whatever the
outcome. -/
def gps_is_linked (s : MState) : Except RErr Bool × MState :=
  (gps_is_linked_result s, (read_passthrough 176 55 1 s).2)

/-- The 24-bit big-endian fraction-of-revolution decode of
`Gps::get_location` (`f32::from_be_bytes([0, b0, b1, b2]) / 0x1000000 * 360`),
modelled over `ℚ`. -/
def gpsAngle (r : List Nat) : ℚ :=
  ((r.getD 0 0 * 65536 + r.getD 1 0 * 256 + r.getD 2 0 : ℚ) / 16777216) * 360

/-- Source `Gps::get_location`: a gating `is_linked` round trip (error
`InvalidData` when unlinked), then two three-byte passthrough reads
(commands 1 and 2) for latitude and longitude. Written with the state
after each round trip spelled out as the corresponding `read_passthrough`
projection. -/
def gps_get_location (s : MState) : Except RErr (ℚ × ℚ) × MState :=
  match gps_is_linked_result s with
  | .error e => (.error e, (read_passthrough 176 55 1 s).2)
  | .ok linked =>
    if !linked then (.error (.io .invalidData), (read_passthrough 176 55 1 s).2)
    else
      match read_passthrough_result 176 1 3 ((read_passthrough 176 55 1 s).2) with
      | .error e => (.error e, (read_passthrough 176 1 3 ((read_passthrough 176 55 1 s).2)).2)
      | .ok r1 =>
        match read_passthrough_result 176 2 3
            ((read_passthrough 176 1 3 ((read_passthrough 176 55 1 s).2)).2) with
        | .error e =>
          (.error e,
           (read_passthrough 176 2 3
             ((read_passthrough 176 1 3 ((read_passthrough 176 55 1 s).2)).2)).2)
        | .ok r2 =>
          (.ok (gpsAngle r1, gpsAngle r2),
           (read_passthrough 176 2 3
             ((read_passthrough 176 1 3 ((read_passthrough 176 55 1 s).2)).2)).2)

/-! ## Claim-side (spec-worded) helper definitions -/

/-- Spec-side notion of a valid ASCII hexadecimal digit byte:
`0`-`9`, `A`-`F`, or `a`-`f`. -/
def isHexDigitByte (c : Nat) : Prop :=
  (48 ≤ c ∧ c ≤ 57) ∨ (65 ≤ c ∧ c ≤ 70) ∨ (97 ≤ c ∧ c ≤ 102)

instance (c : Nat) : Decidable (isHexDigitByte c) := by
  unfold isHexDigitByte; infer_instance

/-- Spec-side numeric value of a hex digit byte (meaningful only on
bytes satisfying `isHexDigitByte`). -/
def hexVal (c : Nat) : Nat :=
  if c ≤ 57 then c - 48 else if c ≤ 70 then c - 55 else c - 87

/-- The full input grammar `i64::from_str_radix(_, 16)` accepts: hex
digits, optionally preceded by a single ASCII `+` (43) or `-` (45). -/
def signedHexForm (bs : List Nat) : Prop :=
  match bs with
  | [] => False
  | c :: rest =>
    if c = 43 ∨ c = 45 then rest ≠ [] ∧ ∀ x ∈ rest, isHexDigitByte x
    else ∀ x ∈ c :: rest, isHexDigitByte x

instance (bs : List Nat) : Decidable (signedHexForm bs) := by
  unfold signedHexForm
  cases bs <;> dsimp only <;> infer_instance

/-- The claims' example right ascension `138.7265968322754`, as the exact
decimal rational. -/
def RA_EXAMPLE : ℚ := 1387265968322754 / 10000000000000

/-- The claims' example declination `89.58314180374146`, as the exact
decimal rational. -/
def DEC_EXAMPLE : ℚ := 8958314180374146 / 100000000000000

/-! # Theorems

One principal theorem per claim (C1–C10), with witnesses for theorems
that carry hypotheses, counterexamples for corrected claims, and shared
helper lemmas in between. -/

/-- Claim C1. For every passthrough read with expected response length
`L`, a received buffer of total length `L + 1` ending in the terminator
`#` succeeds and yields exactly the first `L` bytes; total length `L + 2`
ending in `#` fails with the distinct recoverable `NotConnected`
condition (the spec's `DeviceUnavailable`); any other received length
fails with `InvalidData` (the spec's `MalformedResponse`). -/
theorem passthrough_read_classification (dev cmd L : Nat) (bs : List Nat)
    (hbs : bs ≠ []) :
    (bs.length = L + 1 ∧ bs.getLastD 0 = 35 →
      (read_passthrough dev cmd L (mkState [.ok bs])).1 = .ok (bs.take L)) ∧
    (bs.length = L + 2 ∧ bs.getLastD 0 = 35 →
      (read_passthrough dev cmd L (mkState [.ok bs])).1 =
        .error (.io .notConnected)) ∧
    (bs.length ≠ L + 1 ∧ bs.length ≠ L + 2 →
      (read_passthrough dev cmd L (mkState [.ok bs])).1 =
        .error (.io .invalidData)) := by
  have hlen : bs.length ≠ 0 := by simpa using hbs
  refine ⟨?_, ?_, ?_⟩
  · rintro ⟨hL, hlast⟩
    simp only [List.getLastD_eq_getLast?] at hlast
    simp [read_passthrough, read_passthrough_result, read_port, read_port_result,
          write_port, mkState, passthroughClassify, hL, hlast]
  · rintro ⟨hL, hlast⟩
    simp only [List.getLastD_eq_getLast?] at hlast
    have hne1 : bs.length ≠ L + 1 := by omega
    simp [read_passthrough, read_passthrough_result, read_port, read_port_result,
          write_port, mkState, passthroughClassify, hL, hne1, hlast]
  · rintro ⟨hL1, hL2⟩
    by_cases hlast : bs.getLastD 0 = 35 <;>
      [simp only [List.getLastD_eq_getLast?] at hlast;
       simp only [List.getLastD_eq_getLast?] at hlast] <;>
      simp [read_passthrough, read_passthrough_result, read_port, read_port_result,
            write_port, mkState, passthroughClassify, hL1, hL2, hlast, hlen]

/-- Witness for C1: a concrete `L = 2` success case. -/
theorem passthrough_read_classification_witness :
    (read_passthrough 176 254 2 (mkState [.ok [4, 9, 35]])).1 = .ok [4, 9] :=
  (passthrough_read_classification 176 254 2 [4, 9, 35] (by decide)).1
    ⟨by decide, by decide⟩

/-- Claim C5 (code bug). Contract of the transport `read_port`: it
performs exactly one read call (consumes exactly one script entry and
counts one read); it propagates the serial layer's timeout error;
it fails with `InvalidData` when the last received byte is not `#`;
on success it returns the received bytes (whose count is the `n` the
source returns). However, when the underlying read returns `Ok` with
zero bytes, the source indexes `self.recv[n - 1]` with `n = 0` — a usize
underflow / out-of-bounds index — so the call panics instead of failing
with the spec's `Timeout`. -/
theorem read_port_contract :
    (read_port (mkState [.ok []])).1 = .error .panicked ∧
    (read_port (mkState [.error .timedOut])).1 = .error (.io .timedOut) ∧
    (read_port (mkState [])).1 = .error (.io .timedOut) ∧
    (read_port (mkState [.ok [86, 35]])).1 = .ok [86, 35] ∧
    (read_port (mkState [.ok [86, 66]])).1 = .error (.io .invalidData) ∧
    (read_port (mkState [.ok [86, 35], .ok [1, 35]])).2 =
      { script := [.ok [1, 35]], reads := 1, writes := [] } ∧
    (read_port (mkState [.ok []])).2.reads = 1 := by
  decide

/-- Claim C6 (counterexample). At rate `16384` the u16 product `4 * rate`
wraps, so the code's high byte is `0`, while the claim's arithmetic
`(16384 * 4) / 256` is `256` — the claimed byte equations do not hold for
every rate. -/
theorem slew_rate_overflow_counterexample :
    slew_rate 16384 = (0, 0) ∧ 16384 * 4 / 256 = 256 ∧ (0 : Nat) ≠ 256 := by
  decide

/-- Claim C6 (amended). The rate is scaled by 4 in u16 (wrapping)
arithmetic and split into two bytes that always fit in `u8`; the low byte
always equals `(rate * 4) % 256`, and the claimed high-byte equation
`(rate * 4) / 256` holds whenever `rate ≤ 16383` (no wrap); rate `1800`
encodes to high byte `28`, low byte `32`. -/
theorem slew_rate_byte_split (r : Nat) (hr : r < 65536) :
    (slew_rate r).1 < 256 ∧ (slew_rate r).2 < 256 ∧
    (slew_rate r).2 = r * 4 % 256 ∧
    (r ≤ 16383 → (slew_rate r).1 = r * 4 / 256) ∧
    slew_rate 1800 = (28, 32) := by
  refine ⟨?_, ?_, ?_, fun h => ?_, by decide⟩ <;>
    simp only [slew_rate] <;> omega

/-- Witness for C6 (amended) at the claim's own rate `1800`. -/
theorem slew_rate_byte_split_witness :
    (slew_rate 1800).1 = 1800 * 4 / 256 :=
  (slew_rate_byte_split 1800 (by decide)).2.2.2.1 (by decide)

/-- Claim C9. For rates `r ≤ 16383` the product `4 * r` fits in 16 bits
and the two returned bytes reassemble to exactly `4 * r`; for
`r ≥ 16384` the u16 multiplication wraps modulo `2 ^ 16`, the bytes
reassemble to `4 * r % 2 ^ 16`, and they no longer represent the
requested rate. -/
theorem slew_rate_wrap (r : Nat) (hr : r < 65536) :
    (r ≤ 16383 → (slew_rate r).1 * 256 + (slew_rate r).2 = r * 4) ∧
    (16384 ≤ r →
      (slew_rate r).1 * 256 + (slew_rate r).2 = r * 4 % 65536 ∧
      (slew_rate r).1 * 256 + (slew_rate r).2 ≠ r * 4) := by
  constructor <;> intro h <;> simp only [slew_rate] <;> omega

/-- Witness for C9 at the first wrapping rate `16384`. -/
theorem slew_rate_wrap_witness :
    (slew_rate 16384).1 * 256 + (slew_rate 16384).2 = 16384 * 4 % 65536 ∧
    (slew_rate 16384).1 * 256 + (slew_rate 16384).2 ≠ 16384 * 4 :=
  (slew_rate_wrap 16384 (by decide)).2 (by decide)

/-- Claim C10. The two boolean status queries decode different byte
alphabets: `is_aligned` maps raw byte `0` to false and `1` to true and
errors on every other byte, while `goto_in_progress` maps ASCII `'0'`
(48) to false and `'1'` (49) to true and errors on every other byte,
including raw `0` and `1` (and `is_aligned` errors on ASCII `'0'`). -/
theorem boolean_query_byte_alphabets (b : Nat) :
    (is_aligned (mkState [.ok [b, 35]])).1 =
      (if b = 0 then .ok false
       else if b = 1 then .ok true
       else .error (.io .invalidData)) ∧
    (goto_in_progress (mkState [.ok [b, 35]])).1 =
      (if b = 48 then .ok false
       else if b = 49 then .ok true
       else .error (.io .invalidData)) ∧
    (goto_in_progress (mkState [.ok [0, 35]])).1 = .error (.io .invalidData) ∧
    (goto_in_progress (mkState [.ok [1, 35]])).1 = .error (.io .invalidData) ∧
    (is_aligned (mkState [.ok [48, 35]])).1 = .error (.io .invalidData) := by
  refine ⟨?_, ?_, by decide, by decide, by decide⟩ <;>
    · simp [is_aligned, goto_in_progress, read_handcontrol, read_handcontrol_result,
            read_port, read_port_result, write_port, mkState, List.dropLast]
      split_ifs <;> rfl

/-- Claim C7 (counterexample). `Rtc::get_datetime` performs three
write/read round trips on a successful exchange, and `Gps::get_location`
also performs three — not the single round trip the claim asserts for
every facade call. -/
theorem rtc_get_datetime_three_round_trips :
    (rtc_get_datetime (mkState [.ok [6, 15, 35], .ok [7, 232, 35], .ok [10, 30, 0, 35]])).1 =
      .ok (6, 15, 2024, 10, 30, 0) ∧
    (rtc_get_datetime (mkState [.ok [6, 15, 35], .ok [7, 232, 35], .ok [10, 30, 0, 35]])).2.reads = 3 ∧
    (rtc_get_datetime (mkState [.ok [6, 15, 35], .ok [7, 232, 35], .ok [10, 30, 0, 35]])).2.writes.length = 3 ∧
    (gps_get_location (mkState [.ok [1, 35], .ok [0, 1, 2, 35], .ok [3, 4, 5, 35]])).2.reads = 3 ∧
    (3 : Nat) ≠ 1 := by
  decide

/-- Round-trip accounting of `rtc_get_datetime`: between one and three
round trips, writes tracking reads one-to-one, with exactly three on
success (one per passthrough command, no retries). -/
theorem rtc_get_datetime_reads (s : MState) :
    s.reads + 1 ≤ (rtc_get_datetime s).2.reads ∧
    (rtc_get_datetime s).2.reads ≤ s.reads + 3 ∧
    (rtc_get_datetime s).2.writes.length - s.writes.length =
      (rtc_get_datetime s).2.reads - s.reads ∧
    (∀ v, (rtc_get_datetime s).1 = .ok v →
      (rtc_get_datetime s).2.reads = s.reads + 3) := by
  simp only [rtc_get_datetime, read_passthrough, read_port, write_port]
  repeat' split
  all_goals simp_all
  all_goals casesm* _ ∧ _
  all_goals subst_vars
  all_goals simp_all
  all_goals omega

/-- Round-trip accounting of `gps_get_location`: between one and three
round trips, with exactly three on success (the gating `is_linked`
query plus the two coordinate reads). -/
theorem gps_get_location_reads (s : MState) :
    s.reads + 1 ≤ (gps_get_location s).2.reads ∧
    (gps_get_location s).2.reads ≤ s.reads + 3 ∧
    (∀ v, (gps_get_location s).1 = .ok v →
      (gps_get_location s).2.reads = s.reads + 3) := by
  unfold gps_get_location
  rcases gps_is_linked_result s with e1 | linked <;>
    [skip;
     rcases read_passthrough_result 176 1 3 ((read_passthrough 176 55 1 s).2) with e2 | r1] <;>
    [skip; skip;
     rcases read_passthrough_result 176 2 3
       ((read_passthrough 176 1 3 ((read_passthrough 176 55 1 s).2)).2) with e3 | r2] <;>
    [skip; cases linked; cases linked; cases linked] <;>
    simp [read_passthrough, read_port, write_port]

/-- Claim C7 (amended). No facade call retries a round trip: every port
read is paired with exactly one preceding frame write, and a failing
round trip aborts the call at once (a first-response transport error
leaves exactly one round trip performed and the rest of the incoming
script untouched). But not every facade call is a single round trip: the
composite operations `Rtc::get_datetime` and `Gps::get_location` each
perform up to three write/read round trips, exactly three on success. -/
theorem facade_round_trip_accounting (script : PortScript) :
    ((rtc_get_datetime (mkState script)).2.reads ≤ 3 ∧
     (rtc_get_datetime (mkState script)).2.writes.length =
       (rtc_get_datetime (mkState script)).2.reads ∧
     (∀ v, (rtc_get_datetime (mkState script)).1 = .ok v →
        (rtc_get_datetime (mkState script)).2.reads = 3)) ∧
    ((gps_get_location (mkState script)).2.reads ≤ 3 ∧
     (∀ v, (gps_get_location (mkState script)).1 = .ok v →
        (gps_get_location (mkState script)).2.reads = 3)) ∧
    (∀ e rest, script = .error e :: rest →
      (rtc_get_datetime (mkState script)).1 = .error (.io e) ∧
      (rtc_get_datetime (mkState script)).2.reads = 1 ∧
      (rtc_get_datetime (mkState script)).2.script = rest) := by
  obtain ⟨hr1, hr3, hw, hok⟩ := rtc_get_datetime_reads (mkState script)
  obtain ⟨hg1, hg3, hgok⟩ := gps_get_location_reads (mkState script)
  refine ⟨⟨by simpa using hr3, ?_, fun v hv => by simpa using hok v hv⟩,
          ⟨by simpa using hg3, fun v hv => by simpa using hgok v hv⟩, ?_⟩
  · have : (rtc_get_datetime (mkState script)).2.writes.length =
        (rtc_get_datetime (mkState script)).2.reads := by
      have h0 : (mkState script).reads = 0 := rfl
      have h1 : (mkState script).writes.length = 0 := rfl
      omega
    exact this
  · rintro e rest rfl
    refine ⟨?_, ?_, ?_⟩ <;>
      simp [rtc_get_datetime, read_passthrough, read_passthrough_result,
            read_port, read_port_result, write_port, mkState]

/-- Witness for C7 (amended): a first-read timeout aborts
`rtc_get_datetime` after exactly one round trip. -/
theorem facade_round_trip_accounting_witness :
    (rtc_get_datetime (mkState [.error .timedOut])).1 = .error (.io .timedOut) ∧
    (rtc_get_datetime (mkState [.error .timedOut])).2.reads = 1 :=
  ⟨((facade_round_trip_accounting [.error .timedOut]).2.2 .timedOut [] rfl).1,
   ((facade_round_trip_accounting [.error .timedOut]).2.2 .timedOut [] rfl).2.1⟩

/-- Every digit character the hex formatter emits is one of the sixteen
upper-case hex characters. -/
theorem hexDigitChar_mem (n : Nat) : hexDigitChar n ∈ HEXCHARS := by
  unfold hexDigitChar
  by_cases h : n < HEXCHARS.length
  · rw [List.getD_eq_getElem _ _ h]
    exact List.getElem_mem h
  · rw [List.getD_eq_default _ _ (by omega)]
    decide

/-- Characters of `hexUpperAux` all come from the upper-case alphabet. -/
theorem hexUpperAux_mem (fuel : Nat) :
    ∀ n c, c ∈ hexUpperAux fuel n → c ∈ HEXCHARS := by
  induction fuel with
  | zero => intro n c hc; simp [hexUpperAux] at hc
  | succ f ih =>
    intro n c hc
    rw [hexUpperAux] at hc
    by_cases h : n < 16
    · rw [if_pos h] at hc
      simp only [List.mem_singleton] at hc
      subst hc
      exact hexDigitChar_mem n
    · rw [if_neg h] at hc
      rcases List.mem_append.1 hc with h1 | h1
      · exact ih _ _ h1
      · simp only [List.mem_singleton] at h1
        subst h1
        exact hexDigitChar_mem _

/-- A value with exactly `k + 1` hex digits prints as exactly `k + 1`
characters, provided the fuel exceeds `k`. -/
theorem hexUpperAux_length (k : Nat) :
    ∀ fuel n, k < fuel → 16 ^ k ≤ n → n < 16 ^ (k + 1) →
      (hexUpperAux fuel n).length = k + 1 := by
  induction k with
  | zero =>
    intro fuel n hf h0 h1
    obtain ⟨f, rfl⟩ : ∃ f, fuel = f + 1 := ⟨fuel - 1, by omega⟩
    rw [hexUpperAux, if_pos (by simpa using h1)]
    rfl
  | succ k ih =>
    intro fuel n hf h0 h1
    obtain ⟨f, rfl⟩ : ∃ f, fuel = f + 1 := ⟨fuel - 1, by omega⟩
    have h16 : ¬ n < 16 := by
      have : (16 : Nat) ≤ 16 ^ (k + 1) := Nat.le_self_pow (by omega) 16
      omega
    rw [hexUpperAux, if_neg h16, List.length_append]
    have h0' : 16 ^ k ≤ n / 16 := by
      rw [Nat.le_div_iff_mul_le (by norm_num)]
      calc 16 ^ k * 16 = 16 ^ (k + 1) := by rw [pow_succ]
        _ ≤ n := h0
    have h1' : n / 16 < 16 ^ (k + 1) := by
      rw [Nat.div_lt_iff_lt_mul (by norm_num)]
      calc n < 16 ^ (k + 2) := h1
        _ = 16 ^ (k + 1) * 16 := by rw [pow_succ]
    rw [ih f (n / 16) (by omega) h0' h1']
    rfl

/-- Exact integer angles of the claims' example coordinate pair. -/
theorem example_coordinates_to_i64 :
    from_deg_to_i64 RA_EXAMPLE = 1655072768 ∧
    from_deg_to_i64 DEC_EXAMPLE = 1068768512 := by
  refine ⟨?_, ?_⟩ <;>
  · simp only [from_deg_to_i64, RA_EXAMPLE, DEC_EXAMPLE, i64Sat, ratTrunc, REV]
    rw [if_pos (by norm_num)]
    norm_num

/-- Claim C2 (counterexample). Rust's `{:X}` does no zero padding: the
coordinate pair `(0, 0)` produces the wire characters `r0,0` whose hex
fields are a single character, not 8, so the goto fields are not always
zero-padded to 8 characters. -/
theorem goto_zero_unpadded :
    goto_ra_dec_wire 0 0 = ['r', '0', ',', '0'] ∧
    (i64HexUpper (from_deg_to_i64 0)).length = 1 ∧
    (1 : Nat) ≠ 8 := by
  have h0 : from_deg_to_i64 0 = 0 := by
    unfold from_deg_to_i64 i64Sat ratTrunc REV
    norm_num
  refine ⟨?_, ?_, by decide⟩
  · unfold goto_ra_dec_wire
    rw [h0]
    decide
  · rw [h0]
    decide

/-- Claim C2 (amended). The goto fields are uppercase hex but not
zero-padded: a field has exactly 8 characters precisely for integer
angles in `[16^7, 16^8)`, every emitted character is an upper-case hex
character, and for the claim's own example pair
`(RA = 138.7265968322754, Dec = 89.58314180374146)` both fields do come
out 8 characters long, giving the 18-character frame
`r<8 hex>,<8 hex>`. -/
theorem goto_hex_field_shape (n : Nat) (h7 : 16 ^ 7 ≤ n) (h8 : n < 16 ^ 8) :
    (hexUpper n).length = 8 ∧
    (∀ c ∈ hexUpper n, c ∈ HEXCHARS) ∧
    (i64HexUpper (from_deg_to_i64 RA_EXAMPLE)).length = 8 ∧
    (i64HexUpper (from_deg_to_i64 DEC_EXAMPLE)).length = 8 ∧
    (goto_ra_dec_wire RA_EXAMPLE DEC_EXAMPLE).length = 18 ∧
    (goto_ra_dec_wire RA_EXAMPLE DEC_EXAMPLE).getD 0 ' ' = 'r' ∧
    (goto_ra_dec_wire RA_EXAMPLE DEC_EXAMPLE).getD 9 ' ' = ',' := by
  obtain ⟨hra, hdec⟩ := example_coordinates_to_i64
  refine ⟨hexUpperAux_length 7 64 n (by omega) h7 h8,
          fun c hc => hexUpperAux_mem 64 n c hc, ?_, ?_, ?_, ?_, ?_⟩
  · rw [hra]; decide
  · rw [hdec]; decide
  · unfold goto_ra_dec_wire; rw [hra, hdec]; decide
  · unfold goto_ra_dec_wire; rw [hra, hdec]; decide
  · unfold goto_ra_dec_wire; rw [hra, hdec]; decide

/-- Witness for C2 (amended) at the smallest 8-digit value `16^7`. -/
theorem goto_hex_field_shape_witness :
    (hexUpper (16 ^ 7)).length = 8 :=
  (goto_hex_field_shape (16 ^ 7) (by decide) (by decide)).1

/-- Claim C3. For every degree value `d` in `[0, 360)`, encoding to the
mount's integer angle and decoding back
(`from_i64_to_deg (from_deg_to_i64 d)`) lands within one
encoding-resolution unit `360 / 2 ^ 32` of `d` (codec modelled over exact
rationals, truncation toward zero with Rust's saturating cast). -/
theorem angle_roundtrip_within_one_unit (d : ℚ) (h0 : 0 ≤ d) (h1 : d < 360) :
    |from_i64_to_deg (from_deg_to_i64 d) - d| < 360 / 2 ^ 32 := by
  have hREV : ((REV : ℤ) : ℚ) = 4294967296 := by norm_num [REV]
  set x : ℚ := d / 360 * ((REV : ℤ) : ℚ) with hxdef
  have hx0 : (0 : ℚ) ≤ x := by
    rw [hxdef, hREV]
    positivity
  have hx1 : x < 4294967296 := by
    rw [hxdef, hREV]
    have hlt : d / 360 < 1 := (div_lt_one (by norm_num)).mpr h1
    nlinarith
  have hf0 : (0 : ℤ) ≤ ⌊x⌋ := Int.floor_nonneg.mpr hx0
  have hf1 : ⌊x⌋ < 4294967296 := by
    by_contra hc
    push_neg at hc
    have h1' : ((4294967296 : ℤ) : ℚ) ≤ (⌊x⌋ : ℚ) := by exact_mod_cast hc
    have h2' := Int.floor_le x
    push_cast at h1'
    linarith
  have hfl : from_deg_to_i64 d = ⌊x⌋ := by
    unfold from_deg_to_i64 ratTrunc i64Sat
    rw [← hxdef, if_pos hx0, min_eq_right (by omega), max_eq_right (by omega)]
  rw [hfl]
  have hd : d = x * 360 / 4294967296 := by
    rw [hxdef, hREV]
    field_simp
  have hlo : (⌊x⌋ : ℚ) ≤ x := Int.floor_le x
  have hhi : x < (⌊x⌋ : ℚ) + 1 := Int.lt_floor_add_one x
  have hkey : from_i64_to_deg ⌊x⌋ - d = ((⌊x⌋ : ℚ) - x) * (360 / 4294967296) := by
    unfold from_i64_to_deg
    rw [hREV, hd]
    ring
  have hbound : (360 : ℚ) / 2 ^ 32 = 360 / 4294967296 := by norm_num
  rw [abs_sub_lt_iff, hbound]
  constructor
  · rw [hkey]
    have hnp : ((⌊x⌋ : ℚ) - x) * (360 / 4294967296) ≤ 0 :=
      mul_nonpos_iff.mpr (Or.inr ⟨by linarith, by norm_num⟩)
    have hpos : (0 : ℚ) < 360 / 4294967296 := by norm_num
    linarith
  · have hkey2 : d - from_i64_to_deg ⌊x⌋ = (x - (⌊x⌋ : ℚ)) * (360 / 4294967296) := by
      unfold from_i64_to_deg
      rw [hREV, hd]
      ring
    rw [hkey2]
    have hlt1 : x - (⌊x⌋ : ℚ) < 1 := by linarith
    have := mul_lt_mul_of_pos_right hlt1 (show (0 : ℚ) < 360 / 4294967296 by norm_num)
    rw [one_mul] at this
    exact this

/-- Witness for C3 at `d = 1` degree. -/
theorem angle_roundtrip_within_one_unit_witness :
    |from_i64_to_deg (from_deg_to_i64 1) - 1| < 360 / 2 ^ 32 :=
  angle_roundtrip_within_one_unit 1 (by decide) (by decide)

/-- On a hex digit byte, the parser's digit table agrees with the
spec-side digit value. -/
theorem hexDigitVal_of_isHex (c : Nat) (h : isHexDigitByte c) :
    hexDigitVal c = some (hexVal c) := by
  unfold hexDigitVal hexVal
  rcases h with ⟨a1, a2⟩ | ⟨a1, a2⟩ | ⟨a1, a2⟩ <;> split_ifs <;> simp_all <;> omega

/-- On a non-hex byte, the parser's digit table rejects. -/
theorem hexDigitVal_none (c : Nat) (h : ¬ isHexDigitByte c) :
    hexDigitVal c = none := by
  unfold hexDigitVal
  split_ifs with a1 a2 a3
  · exact absurd (Or.inl a1) h
  · exact absurd (Or.inr (Or.inl a2)) h
  · exact absurd (Or.inr (Or.inr a3)) h
  · rfl

/-- The accumulation loop on an all-hex-digit string computes the
base-16 positional value. -/
theorem parseHexNatAcc_all (l : List Nat) :
    ∀ acc, (∀ c ∈ l, isHexDigitByte c) →
      parseHexNatAcc l acc =
        some (acc * 16 ^ l.length + Nat.ofDigits 16 ((l.map hexVal).reverse)) := by
  induction l with
  | nil =>
    intro acc h
    simp [parseHexNatAcc, Nat.ofDigits]
  | cons c rest ih =>
    intro acc h
    have hc : isHexDigitByte c := h c (by simp)
    have hstep : parseHexNatAcc (c :: rest) acc =
        parseHexNatAcc rest (acc * 16 + hexVal c) := by
      simp [parseHexNatAcc, hexDigitVal_of_isHex c hc]
    rw [hstep, ih (acc * 16 + hexVal c) (fun x hx => h x (by simp [hx]))]
    simp only [List.map_cons, List.reverse_cons, Nat.ofDigits_append, Nat.ofDigits_cons,
               Nat.ofDigits_nil, List.length_reverse, List.length_map, List.length_cons,
               Option.some.injEq]
    ring

/-- The accumulation loop rejects as soon as any byte is not a hex
digit. -/
theorem parseHexNatAcc_bad (l : List Nat) :
    ∀ acc, (∃ c ∈ l, ¬ isHexDigitByte c) → parseHexNatAcc l acc = none := by
  induction l with
  | nil =>
    intro acc h
    simp at h
  | cons c rest ih =>
    intro acc h
    by_cases hc : isHexDigitByte c
    · have hrest : ∃ x ∈ rest, ¬ isHexDigitByte x := by
        rcases h with ⟨x, hx, hxbad⟩
        rcases List.mem_cons.1 hx with rfl | hxr
        · exact absurd hc hxbad
        · exact ⟨x, hxr, hxbad⟩
      simp [parseHexNatAcc, hexDigitVal_of_isHex c hc, ih _ hrest]
    · simp [parseHexNatAcc, hexDigitVal_none c hc]

/-- Reduction of the accepted-input grammar for a leading ASCII `+`. -/
theorem signedHexForm_plus (rest : List Nat) :
    signedHexForm (43 :: rest) ↔ rest ≠ [] ∧ ∀ x ∈ rest, isHexDigitByte x := by
  simp [signedHexForm]

/-- Reduction of the accepted-input grammar for a leading ASCII `-`. -/
theorem signedHexForm_minus (rest : List Nat) :
    signedHexForm (45 :: rest) ↔ rest ≠ [] ∧ ∀ x ∈ rest, isHexDigitByte x := by
  simp [signedHexForm]

/-- Reduction of the accepted-input grammar for an unsigned input. -/
theorem signedHexForm_other (c : Nat) (rest : List Nat)
    (h43 : c ≠ 43) (h45 : c ≠ 45) :
    signedHexForm (c :: rest) ↔ ∀ x ∈ c :: rest, isHexDigitByte x := by
  simp [signedHexForm, h43, h45]

/-- For a first byte that is neither ASCII `+` nor `-`, the radix-16
parser takes its unsigned catch-all branch. -/
theorem from_str_radix16_catchall (c : Nat) (rest : List Nat)
    (h43 : c ≠ 43) (h45 : c ≠ 45) :
    from_str_radix16 (c :: rest) =
      (parseHexNatAcc (c :: rest) 0).map (fun n => (n : ℤ)) := by
  unfold from_str_radix16
  split
  · rename_i heq
    exact absurd heq (by simp)
  · rename_i rest2 heq
    injection heq with hc hr
    exact absurd hc h43
  · rename_i rest2 heq
    injection heq with hc hr
    exact absurd hc h45
  · rfl

/-- Claim C4 (counterexample). The 8-byte input `GGGGGGGG` is not valid
hex, and the decoder panics on it (the `unwrap` in `from_msg_to_i64`,
modelled as `none`) instead of returning a `MalformedAngle` error — no
such error value exists anywhere in the code. -/
theorem decode_invalid_hex_panics :
    from_msg_to_i64 (List.replicate 8 71) = none ∧
    (List.replicate 8 71).length = 8 := by
  decide

/-- Claim C4 (amended). The decode is not total and returns no
`MalformedAngle` error: on an 8-byte input of hex digits it returns the
base-16 value; on any 8-byte input accepted by `from_str_radix` (hex
digits with an optional leading ASCII sign) it returns some value rather
than panicking; on every other 8-byte input it panics (`unwrap` on the
parse error, modelled as `none`). -/
theorem from_msg_to_i64_amended (bs : List Nat) (hlen : bs.length = 8) :
    ((∀ c ∈ bs, isHexDigitByte c) →
      from_msg_to_i64 bs =
        some ((Nat.ofDigits 16 ((bs.map hexVal).reverse) : ℕ) : ℤ)) ∧
    (signedHexForm bs → ∃ v, from_msg_to_i64 bs = some v) ∧
    (¬ signedHexForm bs → from_msg_to_i64 bs = none) := by
  rcases bs with _ | ⟨c, rest⟩
  · simp at hlen
  refine ⟨?_, ?_, ?_⟩
  · intro h
    have hc : isHexDigitByte c := h c (by simp)
    have h43 : c ≠ 43 := by rcases hc with ⟨a, b⟩ | ⟨a, b⟩ | ⟨a, b⟩ <;> omega
    have h45 : c ≠ 45 := by rcases hc with ⟨a, b⟩ | ⟨a, b⟩ | ⟨a, b⟩ <;> omega
    unfold from_msg_to_i64
    rw [from_str_radix16_catchall c rest h43 h45, parseHexNatAcc_all (c :: rest) 0 h]
    simp
  · intro h
    unfold from_msg_to_i64
    by_cases h43 : c = 43
    · subst h43
      rw [signedHexForm_plus] at h
      obtain ⟨hne, hall⟩ := h
      rw [show from_str_radix16 (43 :: rest) =
            (if rest.isEmpty then none
             else (parseHexNatAcc rest 0).map (fun n => (n : ℤ))) from rfl]
      rw [if_neg (by simpa using hne), parseHexNatAcc_all rest 0 hall]
      exact ⟨_, rfl⟩
    · by_cases h45 : c = 45
      · subst h45
        rw [signedHexForm_minus] at h
        obtain ⟨hne, hall⟩ := h
        rw [show from_str_radix16 (45 :: rest) =
              (if rest.isEmpty then none
               else (parseHexNatAcc rest 0).map (fun n => -(n : ℤ))) from rfl]
        rw [if_neg (by simpa using hne), parseHexNatAcc_all rest 0 hall]
        exact ⟨_, rfl⟩
      · rw [signedHexForm_other c rest h43 h45] at h
        rw [from_str_radix16_catchall c rest h43 h45, parseHexNatAcc_all (c :: rest) 0 h]
        exact ⟨_, rfl⟩
  · intro h
    unfold from_msg_to_i64
    by_cases h43 : c = 43
    · subst h43
      rw [signedHexForm_plus] at h
      push_neg at h
      by_cases hre : rest = []
      · subst hre
        rfl
      · have hbad : ∃ x ∈ rest, ¬ isHexDigitByte x := by
          by_contra hall
          push_neg at hall
          exact absurd (h hre) (by simpa using hall)
        rw [show from_str_radix16 (43 :: rest) =
              (if rest.isEmpty then none
               else (parseHexNatAcc rest 0).map (fun n => (n : ℤ))) from rfl]
        rw [if_neg (by simpa using hre), parseHexNatAcc_bad rest 0 hbad]
        rfl
    · by_cases h45 : c = 45
      · subst h45
        rw [signedHexForm_minus] at h
        push_neg at h
        by_cases hre : rest = []
        · subst hre
          rfl
        · have hbad : ∃ x ∈ rest, ¬ isHexDigitByte x := by
            by_contra hall
            push_neg at hall
            exact absurd (h hre) (by simpa using hall)
          rw [show from_str_radix16 (45 :: rest) =
                (if rest.isEmpty then none
                 else (parseHexNatAcc rest 0).map (fun n => -(n : ℤ))) from rfl]
          rw [if_neg (by simpa using hre), parseHexNatAcc_bad rest 0 hbad]
          rfl
      · rw [signedHexForm_other c rest h43 h45] at h
        have hbad : ∃ x ∈ c :: rest, ¬ isHexDigitByte x := by
          by_contra hall
          push_neg at hall
          exact h (by simpa using hall)
        rw [from_str_radix16_catchall c rest h43 h45, parseHexNatAcc_bad (c :: rest) 0 hbad]
        rfl

/-- Witness for C4 (amended): the 8 hex bytes `0000002F` decode to the
positional base-16 value. -/
theorem from_msg_to_i64_amended_witness :
    from_msg_to_i64 [48, 48, 48, 48, 48, 48, 50, 70] =
      some ((Nat.ofDigits 16
        (([48, 48, 48, 48, 48, 48, 50, 70].map hexVal).reverse) : ℕ) : ℤ) :=
  (from_msg_to_i64_amended [48, 48, 48, 48, 48, 48, 50, 70] (by decide)).1 (by decide)

/-- Two 17-byte messages that agree at every offset except 8 have the
same two 8-byte coordinate-field slices. -/
theorem decode_slices_eq (m1 m2 : List Nat) (h1 : m1.length = 17)
    (h2 : m2.length = 17)
    (hag : ∀ i, i < 17 → i ≠ 8 → m1.getD i 0 = m2.getD i 0) :
    m1.take 8 = m2.take 8 ∧ (m1.drop 9).take 8 = (m2.drop 9).take 8 := by
  constructor
  · apply List.ext_getElem
    · simp [h1, h2]
    · intro i hi1 hi2
      have hi : i < 8 := by
        simpa [h1] using hi1
      have hx := hag i (by omega) (by omega)
      rw [List.getD_eq_getElem _ _ (show i < m1.length by omega),
          List.getD_eq_getElem _ _ (show i < m2.length by omega)] at hx
      simpa [List.getElem_take] using hx
  · apply List.ext_getElem
    · simp [h1, h2]
    · intro i hi1 hi2
      have hi : i < 8 := by
        simp [h1] at hi1
        omega
      have hx := hag (9 + i) (by omega) (by omega)
      rw [List.getD_eq_getElem _ _ (show 9 + i < m1.length by omega),
          List.getD_eq_getElem _ _ (show 9 + i < m2.length by omega)] at hx
      simpa [List.getElem_take, List.getElem_drop] using hx

/-- Messages with identical field slices decode identically. -/
theorem decode_of_slices (a b : List Nat) (ha : a.length = 17)
    (hb : b.length = 17) (h8 : a.take 8 = b.take 8)
    (h9 : (a.drop 9).take 8 = (b.drop 9).take 8) :
    RADec_from_msg a = RADec_from_msg b ∧ AzEl_from_msg a = AzEl_from_msg b := by
  unfold RADec_from_msg AzEl_from_msg
  rw [ha, hb, h8, h9]
  exact ⟨rfl, rfl⟩

/-- Claim C8. The coordinate-pair decoders read only bytes `[0..8)` and
`[9..17)` and never look at the separator byte at offset 8: two 17-byte
messages that differ only at offset 8 decode to identical results (for
both the RA/Dec and the Az/El decoder), and overwriting the separator
byte with any value changes nothing — in particular no value of that
byte can turn a successful decode into a failure. -/
theorem comma_byte_never_read (m1 m2 : List Nat) (h1 : m1.length = 17)
    (h2 : m2.length = 17)
    (hag : ∀ i, i < 17 → i ≠ 8 → m1.getD i 0 = m2.getD i 0) :
    RADec_from_msg m1 = RADec_from_msg m2 ∧
    AzEl_from_msg m1 = AzEl_from_msg m2 ∧
    (∀ b, RADec_from_msg (m1.set 8 b) = RADec_from_msg m1 ∧
          AzEl_from_msg (m1.set 8 b) = AzEl_from_msg m1) := by
  obtain ⟨ht, hd⟩ := decode_slices_eq m1 m2 h1 h2 hag
  obtain ⟨hr, hz⟩ := decode_of_slices m1 m2 h1 h2 ht hd
  refine ⟨hr, hz, ?_⟩
  intro b
  have hsl : (m1.set 8 b).length = 17 := by simp [h1]
  have hag2 : ∀ i, i < 17 → i ≠ 8 → (m1.set 8 b).getD i 0 = m1.getD i 0 := by
    intro i hi hne
    rw [List.getD_eq_getElem _ _ (by simp; omega), List.getD_eq_getElem _ _ (by omega)]
    exact List.getElem_set_ne (by omega) _
  obtain ⟨ht2, hd2⟩ := decode_slices_eq (m1.set 8 b) m1 hsl h1 hag2
  exact decode_of_slices (m1.set 8 b) m1 hsl h1 ht2 hd2

/-- Witness for C8: replacing the comma (44) at offset 8 with `X` (88)
leaves the decoded pair unchanged. -/
theorem comma_byte_never_read_witness :
    RADec_from_msg
        [48, 48, 48, 48, 48, 48, 48, 49, 44, 48, 48, 48, 48, 48, 48, 48, 50] =
      RADec_from_msg
        [48, 48, 48, 48, 48, 48, 48, 49, 88, 48, 48, 48, 48, 48, 48, 48, 50] :=
  (comma_byte_never_read
    [48, 48, 48, 48, 48, 48, 48, 49, 44, 48, 48, 48, 48, 48, 48, 48, 50]
    [48, 48, 48, 48, 48, 48, 48, 49, 88, 48, 48, 48, 48, 48, 48, 48, 50]
    (by decide) (by decide) (by decide)).1
